import Mathlib

/-!
# Verification of the shortsell screening engine

Shallow embedding of the two-stage filter-then-score pipeline of the
shortsell repository (`app.py`, `strategy.py`) and proofs of the frozen
claims about it.

Modelling conventions:
* Prices and volumes are modelled by `ℚ` (the source works with IEEE
  doubles coming out of pandas; the thresholds `0.05`, `0.098`, `0.07`,
  `20`, `3000000` are taken at their decimal values).
* A pandas cell that is NaN is modelled by `none`; `DataFrame.dropna()`
  keeps exactly the rows in which every column is present.
* numpy float division by zero does not raise: `x / 0` is `+inf`, `-inf`
  or `nan` according to the sign of `x`.  The comparisons the source
  performs on such quotients are modelled by `npGT`/`npGE`/`npLT` below,
  which spell out the outcome of comparing `±inf`/`nan` with a finite
  threshold.
* Display-only formatting of the source (`round(x, 2)`, percent strings,
  `int(volume/1000)`) is not modelled; the records carry the underlying
  numeric values instead.
-/

namespace Shortsell

/-- One complete (NaN-free) OHLCV bar of one trading session. -/
structure CRow where
  open_ : ℚ
  high : ℚ
  low : ℚ
  close : ℚ
  volume : ℚ
deriving DecidableEq, Repr

instance : Inhabited CRow := ⟨⟨0, 0, 0, 0, 0⟩⟩

/-- One raw bar as delivered by the data gateway; a `none` field models a
NaN cell in the corresponding pandas column. -/
structure Row where
  open_ : Option ℚ
  high : Option ℚ
  low : Option ℚ
  close : Option ℚ
  volume : Option ℚ
deriving DecidableEq, Repr

/-- The complete bar carried by a raw row, when no cell is missing. -/
def Row.completed (r : Row) : Option CRow :=
  match r.open_, r.high, r.low, r.close, r.volume with
  | some o, some h, some l, some c, some v => some ⟨o, h, l, c, v⟩
  | _, _, _, _, _ => none

/-- Embed a complete bar back into a raw row (used to build inputs). -/
def CRow.toRow (r : CRow) : Row :=
  ⟨some r.open_, some r.high, some r.low, some r.close, some r.volume⟩

/-- `df.dropna()`: keep exactly the rows in which every column is present. -/
def dropna (df : List Row) : List CRow :=
  df.filterMap Row.completed

/-- `series.rolling(k).mean().iloc[-1]`: arithmetic mean of the trailing
`k` entries of the column (the callers only use it on columns of length
at least `k`). -/
def lastMean (k : ℕ) (l : List ℚ) : ℚ :=
  (l.reverse.take k).sum / (k : ℚ)

/-- numpy semantics of `num / den > t` for a finite threshold `t`: when
`den = 0` the quotient is `+inf` (`num > 0`), `-inf` (`num < 0`) or `nan`
(`num = 0`), so the comparison holds exactly when `num > 0`. -/
def npGT (num den t : ℚ) : Bool :=
  if den = 0 then decide (0 < num) else decide (t < num / den)

/-- numpy semantics of `num / den < t` for a finite threshold `t`: with
`den = 0` the comparison holds exactly when the quotient is `-inf`. -/
def npLT (num den t : ℚ) : Bool :=
  if den = 0 then decide (num < 0) else decide (num / den < t)

/-- The trade direction (`mode == "空方"` selects the short branch of
`analyze_stock`; anything else takes the long branch). -/
inductive Mode
  | short
  | long
deriving DecidableEq, Repr

/-- Input of `analyze_stock` and of the pre-filter loop body: either a
value failing the `isinstance`/`'Close' in df.columns` shape check (or a
missing ticker key), or a usable frame of raw rows. -/
inductive DFrame
  | malformed
  | frame (rows : List Row)
deriving DecidableEq, Repr

/-- The candidate record built by `analyze_stock`.  The source stores
formatted strings (`收盤價` rounded, `漲跌幅` and `20MA乖離` as percent
strings, `成交量(張)` as `int(volume/1000)`); the record here carries the
underlying numeric values. -/
structure Result where
  ticker : String
  close : ℚ
  prevClose : ℚ
  score : ℕ
  reasons : List String
  volume : ℚ
deriving DecidableEq, Repr

/-- One `if cond: score += w; reasons.append(tag)` step of
`analyze_stock`. -/
def addRule (acc : ℕ × List String) (cond : Bool) (w : ℕ) (tag : String) :
    ℕ × List String :=
  if cond then (acc.1 + w, acc.2 ++ [tag]) else acc

/-- The four scoring rules of `analyze_stock`, in source order, for each
mode.  The deviation rule compares `bias = (close - ma20) / ma20` with the
threshold under numpy division semantics (`npGT`/`npLT`). -/
def scoreRules (mode : Mode) (curr prev : CRow) (ma5 ma20 volMa5 : ℚ) :
    ℕ × List String :=
  match mode with
  | .short =>
    addRule (addRule (addRule (addRule ((0 : ℕ), ([] : List String))
      (decide (curr.close < ma5)) 1 "破5MA")
      (decide (curr.close < curr.open_)) 1 "收黑K")
      (npGT (curr.close - ma20) ma20 (5 / 100)) 2 "高乖離")
      (decide (curr.close < prev.close) && decide (volMa5 < curr.volume)) 1 "量增跌"
  | .long =>
    addRule (addRule (addRule (addRule ((0 : ℕ), ([] : List String))
      (decide (ma5 < curr.close)) 1 "突破5MA")
      (decide (curr.open_ < curr.close)) 1 "收紅K")
      (npLT (curr.close - ma20) ma20 (-5 / 100)) 2 "跌深反彈")
      (decide (prev.close < curr.close) && decide (volMa5 < curr.volume)) 1 "量增漲"

/-- `analyze_stock(ticker, df, mode)` of `app.py`: shape check, dropna,
length guard, indicators over the complete rows, the four scoring rules,
and a result only when the score is positive.  The body of the source is
wrapped in a blanket `try/except` returning `None`; the only fallible
steps it covers (shape check, `iloc` access) are total here. -/
def analyze_stock (ticker : String) (mode : Mode) (df : DFrame) :
    Option Result :=
  match df with
  | .malformed => none
  | .frame rows =>
    let data := dropna rows
    if data.length < 20 then none
    else
      let curr := data.reverse.headI
      let prev := data.reverse.tail.headI
      let ma5 := lastMean 5 (data.map CRow.close)
      let ma20 := lastMean 20 (data.map CRow.close)
      let volMa5 := lastMean 5 (data.map CRow.volume)
      let sr := scoreRules mode curr prev ma5 ma20 volMa5
      if 0 < sr.1 then
        some ⟨ticker, curr.close, prev.close, sr.1, sr.2, curr.volume⟩
      else none

/-- The volume threshold of the first-stage filter (`VOL_THRESHOLD`). -/
def VOL_THRESHOLD : ℚ := 3000000

/-- The body of the `qualified_tickers` loop of `app.py` for one
instrument: dropna, guard against fewer than two rows (an empty frame is
skipped explicitly; a one-row frame raises `IndexError` on `iloc[-2]`,
swallowed by the `except: continue`), the limit-up ratio, and the
volume/price qualification with the short-mode limit-up exclusion.
Unlike the scorer, this loop casts its cells to Python floats
(`float(...)`), so the percent-change division raises
`ZeroDivisionError` when the previous close is 0; the `except: continue`
then skips the ticker, modelled by the `prev.close = 0` rejection. -/
def prefilter (mode : Mode) (df : DFrame) : Bool :=
  match df with
  | .malformed => false
  | .frame rows =>
    let temp := dropna rows
    if temp.length < 2 then false
    else
      let curr := temp.reverse.headI
      let prev := temp.reverse.tail.headI
      if prev.close = 0 then false
      else
        let is_limit_up := decide (98 / 1000 ≤ (curr.close - prev.close) / prev.close)
        if VOL_THRESHOLD ≤ curr.volume ∧ 20 < curr.close then
          if mode = Mode.short ∧ is_limit_up = true then false else true
        else false

/-- The first-stage loop of `app.py`: the identifiers surviving the
pre-filter, in input order. -/
def qualifiedTickers (mode : Mode) (inputs : List (String × DFrame)) :
    List String :=
  (inputs.filter fun p => prefilter mode p.2).map Prod.fst

/-- The second-stage loop of `app.py`: score every surviving instrument
and keep the results reaching the score threshold, in input order. -/
def scanStage2 (mode : Mode) (minScore : ℕ)
    (inputs : List (String × DFrame)) : List Result :=
  inputs.filterMap fun p =>
    match analyze_stock p.1 mode p.2 with
    | some r => if minScore ≤ r.score then some r else none
    | none => none

/-- Comparison key of the ranking stage: the composite score. -/
def scoreLE (a b : Result) : Prop := a.score ≤ b.score

instance : DecidableRel scoreLE := fun a b =>
  inferInstanceAs (Decidable (a.score ≤ b.score))

instance : IsTotal Result scoreLE := ⟨fun a b => Nat.le_total a.score b.score⟩

instance : IsTrans Result scoreLE := ⟨fun _ _ _ h h' => Nat.le_trans h h'⟩

/-- numpy's contract for `argsort(kind='quicksort')` viewed on the score
column: the output is an ascending reordering of the input.  The relative
order of equal keys is implementation-defined — the default quicksort is
an introsort that is not stable beyond its small-array cutoff — so
nothing beyond this contract may be assumed. -/
def AscSortKernel (kernel : List Result → List Result) : Prop :=
  ∀ l : List Result, (kernel l).Perm l ∧ List.Sorted scoreLE (kernel l)

/-- `pd.DataFrame(results).sort_values(by="評分", ascending=False)`:
pandas `nargsort` with `ascending=False` reverses the array, applies the
ascending argsort, and reverses the resulting indexer.  The source
requests the default `kind='quicksort'`, whose tie order numpy leaves
implementation-defined, so the argsort kernel is a parameter constrained
only by `AscSortKernel`. -/
def sort_values_desc (kernel : List Result → List Result)
    (l : List Result) : List Result :=
  (kernel l.reverse).reverse

/-- The reversed comparison key, used to build a tie-reversing kernel. -/
def scoreGE (a b : Result) : Prop := b.score ≤ a.score

instance : DecidableRel scoreGE := fun a b =>
  inferInstanceAs (Decidable (b.score ≤ a.score))

instance : IsTotal Result scoreGE := ⟨fun a b => Nat.le_total b.score a.score⟩

instance : IsTrans Result scoreGE := ⟨fun _ _ _ h h' => Nat.le_trans h' h⟩

/-- An ascending sort admitted by numpy's contract that reverses the
relative order of equal keys: sort descending with a stable sort, then
reverse. -/
def tieRevKernel (l : List Result) : List Result :=
  (List.insertionSort scoreGE l).reverse

/-- The record built by `analyze_short_opportunity` of `strategy.py`.
`Bias_20MA` is a percent string formatted from `(last_close - ma20)/ma20`;
its numerator and denominator are carried here instead. -/
structure SResult where
  Ticker : String
  Close : ℚ
  Score : ℕ
  biasNum : ℚ
  biasDen : ℚ
deriving DecidableEq, Repr

/-- `analyze_short_opportunity(ticker, df)` of `strategy.py`: length
guard, indicators, four short-side rules, and an unconditional record.
The source performs no missing-data handling, so its input is modelled as
complete rows. -/
def analyze_short_opportunity (ticker : String) (df : List CRow) :
    Option SResult :=
  if df.length < 20 then none
  else
    let closes := df.map CRow.close
    let vols := df.map CRow.volume
    let last_close := closes.reverse.headI
    let prev_close := closes.reverse.tail.headI
    let ma5 := lastMean 5 closes
    let ma20 := lastMean 20 closes
    let volume_ma5 := lastMean 5 vols
    let s1 : ℕ := if last_close < ma5 then 1 else 0
    let s2 : ℕ := if ma5 < lastMean 5 closes.dropLast then 1 else 0
    let s3 : ℕ := if last_close < prev_close ∧ volume_ma5 < vols.reverse.headI
      then 1 else 0
    let s4 : ℕ := if npGT (last_close - ma20) ma20 (7 / 100) = true ∧
      last_close < (df.reverse.headI).open_ then 2 else 0
    some ⟨ticker, last_close, s1 + s2 + s3 + s4, last_close - ma20, ma20⟩

/-! ### Concrete inputs used by witnesses and counterexamples -/

/-- A flat bar: open `o`, close `c`, volume `v` (high and low at `c`). -/
def mkBar (o c v : ℚ) : CRow := ⟨o, c, c, c, v⟩

/-- A complete raw row built from a flat bar. -/
def mkRow (o c v : ℚ) : Row := CRow.toRow (mkBar o c v)

/-- 20 complete sessions: 15 at close 50, then 4 at close 200, then a
final bearish session (open 150, close 100) on a volume spike. -/
def rowsAllRules : List Row :=
  [mkRow 50 50 100, mkRow 50 50 100, mkRow 50 50 100, mkRow 50 50 100,
   mkRow 50 50 100, mkRow 50 50 100, mkRow 50 50 100, mkRow 50 50 100,
   mkRow 50 50 100, mkRow 50 50 100, mkRow 50 50 100, mkRow 50 50 100,
   mkRow 50 50 100, mkRow 50 50 100, mkRow 50 50 100, mkRow 200 200 100,
   mkRow 200 200 100, mkRow 200 200 100, mkRow 200 200 100, mkRow 150 100 1000]

/-- The complete rows of `rowsAllRules` other than the last two, newest
first. -/
def restAllRules : List CRow :=
  [mkBar 200 200 100, mkBar 200 200 100, mkBar 200 200 100,
   mkBar 50 50 100, mkBar 50 50 100, mkBar 50 50 100, mkBar 50 50 100,
   mkBar 50 50 100, mkBar 50 50 100, mkBar 50 50 100, mkBar 50 50 100,
   mkBar 50 50 100, mkBar 50 50 100, mkBar 50 50 100, mkBar 50 50 100,
   mkBar 50 50 100, mkBar 50 50 100, mkBar 50 50 100]

/-- 20 complete sessions that are entirely degenerate: close 0 every day
(so `ma20 = 0`), open 1, volume 1. -/
def rowsZeroMa20 : List Row :=
  [mkRow 1 0 1, mkRow 1 0 1, mkRow 1 0 1, mkRow 1 0 1, mkRow 1 0 1,
   mkRow 1 0 1, mkRow 1 0 1, mkRow 1 0 1, mkRow 1 0 1, mkRow 1 0 1,
   mkRow 1 0 1, mkRow 1 0 1, mkRow 1 0 1, mkRow 1 0 1, mkRow 1 0 1,
   mkRow 1 0 1, mkRow 1 0 1, mkRow 1 0 1, mkRow 1 0 1, mkRow 1 0 1]

/-- The complete rows of `rowsZeroMa20` other than the last two, newest
first. -/
def restZeroMa20 : List CRow :=
  [mkBar 1 0 1, mkBar 1 0 1, mkBar 1 0 1, mkBar 1 0 1, mkBar 1 0 1,
   mkBar 1 0 1, mkBar 1 0 1, mkBar 1 0 1, mkBar 1 0 1, mkBar 1 0 1,
   mkBar 1 0 1, mkBar 1 0 1, mkBar 1 0 1, mkBar 1 0 1, mkBar 1 0 1,
   mkBar 1 0 1, mkBar 1 0 1, mkBar 1 0 1]

/-- The record `analyze_stock` builds on `rowsZeroMa20` in short mode:
only the bearish-close rule fires. -/
def resZeroMa20 : Result := ⟨"X", 0, 0, 1, ["收黑K"], 1⟩

/-- 20 identical flat sessions (close = open = 100): no short rule fires. -/
def rowsFlat : List Row :=
  [mkRow 100 100 100, mkRow 100 100 100, mkRow 100 100 100, mkRow 100 100 100,
   mkRow 100 100 100, mkRow 100 100 100, mkRow 100 100 100, mkRow 100 100 100,
   mkRow 100 100 100, mkRow 100 100 100, mkRow 100 100 100, mkRow 100 100 100,
   mkRow 100 100 100, mkRow 100 100 100, mkRow 100 100 100, mkRow 100 100 100,
   mkRow 100 100 100, mkRow 100 100 100, mkRow 100 100 100, mkRow 100 100 100]

/-- The same 20 identical flat sessions as complete bars. -/
def barsFlat : List CRow :=
  [mkBar 100 100 100, mkBar 100 100 100, mkBar 100 100 100, mkBar 100 100 100,
   mkBar 100 100 100, mkBar 100 100 100, mkBar 100 100 100, mkBar 100 100 100,
   mkBar 100 100 100, mkBar 100 100 100, mkBar 100 100 100, mkBar 100 100 100,
   mkBar 100 100 100, mkBar 100 100 100, mkBar 100 100 100, mkBar 100 100 100,
   mkBar 100 100 100, mkBar 100 100 100, mkBar 100 100 100, mkBar 100 100 100]

/-- Two liquid sessions whose latest close sits exactly on the price
threshold 20. -/
def rowsAtPriceCut : List Row := [mkRow 20 20 5000000, mkRow 20 20 3000000]

/-- Two liquid sessions just above the price threshold. -/
def rowsAbovePriceCut : List Row := [mkRow 21 21 5000000, mkRow 21 21 3000000]

/-- Two liquid sessions with a 10% day-over-day gain (a limit-up move). -/
def rowsLimitUp : List Row := [mkRow 100 100 100, mkRow 110 110 3000000]

/-- 19 complete sessions plus one session with a missing close. -/
def rowsOneNaN : List Row :=
  [mkRow 100 100 100, mkRow 100 100 100, mkRow 100 100 100, mkRow 100 100 100,
   mkRow 100 100 100, mkRow 100 100 100, mkRow 100 100 100, mkRow 100 100 100,
   mkRow 100 100 100, mkRow 100 100 100, mkRow 100 100 100, mkRow 100 100 100,
   mkRow 100 100 100, mkRow 100 100 100, mkRow 100 100 100, mkRow 100 100 100,
   mkRow 100 100 100, mkRow 100 100 100, mkRow 100 100 100,
   ⟨some 100, some 100, some 100, none, some 100⟩]

/-- Three ranked candidates: two tied at score 3 (discovered `resTieA`
then `resTieB`) and one at score 1. -/
def resTieA : Result := ⟨"A", 30, 29, 3, ["破5MA"], 100⟩

/-- Second candidate of the tie at score 3. -/
def resTieB : Result := ⟨"B", 40, 39, 3, ["收黑K"], 200⟩

/-- A candidate at score 1, discovered last. -/
def resLow : Result := ⟨"C", 50, 49, 1, ["高乖離"], 300⟩

/-! ### Helper lemmas -/

theorem dropna_length_le (df : List Row) : (dropna df).length ≤ df.length :=
  List.length_filterMap_le _ _

theorem dropna_filter_completed (df : List Row) :
    dropna (df.filter fun r => r.completed.isSome) = dropna df := by
  induction df with
  | nil => rfl
  | cons a l ih =>
    cases h : a.completed with
    | none =>
      simp only [dropna, List.filter_cons, h, Option.isSome_none,
        List.filterMap_cons] at ih ⊢
      simpa [h] using ih
    | some c =>
      simp only [dropna, List.filter_cons, h, Option.isSome_some, if_true,
        List.filterMap_cons] at ih ⊢
      simpa [h] using ih

/-- Reduction of `analyze_stock` on a frame with at least 20 complete
rows, given the two newest complete rows. -/
theorem analyze_stock_frame_eq (t : String) (mode : Mode) (rows : List Row)
    (curr prev : CRow) (rest : List CRow)
    (hrev : (dropna rows).reverse = curr :: prev :: rest)
    (hlen : 20 ≤ (dropna rows).length) :
    analyze_stock t mode (.frame rows) =
      (if 0 < (scoreRules mode curr prev
          (lastMean 5 ((dropna rows).map CRow.close))
          (lastMean 20 ((dropna rows).map CRow.close))
          (lastMean 5 ((dropna rows).map CRow.volume))).1 then
        some ⟨t, curr.close, prev.close,
          (scoreRules mode curr prev
            (lastMean 5 ((dropna rows).map CRow.close))
            (lastMean 20 ((dropna rows).map CRow.close))
            (lastMean 5 ((dropna rows).map CRow.volume))).1,
          (scoreRules mode curr prev
            (lastMean 5 ((dropna rows).map CRow.close))
            (lastMean 20 ((dropna rows).map CRow.close))
            (lastMean 5 ((dropna rows).map CRow.volume))).2, curr.volume⟩
      else none) := by
  simp only [analyze_stock, hrev, List.headI, List.tail_cons,
    if_neg (Nat.not_lt.mpr hlen)]

theorem addRule_fst_mono (acc : ℕ × List String) (cond : Bool) (w : ℕ)
    (tag : String) : acc.1 ≤ (addRule acc cond w tag).1 := by
  unfold addRule
  split <;> simp

theorem addRule_fst_le (acc : ℕ × List String) (cond : Bool) (w : ℕ)
    (tag : String) : (addRule acc cond w tag).1 ≤ acc.1 + w := by
  unfold addRule
  split <;> simp

theorem addRule_fst_pos (acc : ℕ × List String) {cond : Bool} (w : ℕ)
    (tag : String) (h : cond = true) (hw : 0 < w) :
    0 < (addRule acc cond w tag).1 := by
  simp only [addRule, h, if_true]
  omega

theorem scoreRules_fst_le_five (mode : Mode) (curr prev : CRow)
    (ma5 ma20 volMa5 : ℚ) :
    (scoreRules mode curr prev ma5 ma20 volMa5).1 ≤ 5 := by
  cases mode <;>
    simp only [scoreRules, addRule] <;>
    split_ifs <;> simp

/-! ### The claims -/

/-- C1: for every input series with fewer than 20 sessions (rows), the
Signal Scorer returns no result, for both scorer variants
(`analyze_stock` in both modes, and `analyze_short_opportunity`). -/
theorem scorer_insufficient_history_none (t : String) (mode : Mode)
    (rows : List Row) (df : List CRow)
    (h1 : rows.length < 20) (h2 : df.length < 20) :
    analyze_stock t mode (.frame rows) = none ∧
      analyze_short_opportunity t df = none := by
  refine ⟨?_, ?_⟩
  · have h : (dropna rows).length < 20 :=
      lt_of_le_of_lt (dropna_length_le rows) h1
    simp [analyze_stock, h]
  · simp [analyze_short_opportunity, h2]

/-- Witness for C1 at the empty series. -/
theorem scorer_insufficient_history_none_witness :
    ([] : List Row).length < 20 ∧
      analyze_stock "X" Mode.short (.frame []) = none ∧
        analyze_short_opportunity "X" [] = none :=
  ⟨by decide,
    scorer_insufficient_history_none "X" Mode.short [] [] (by decide) (by decide)⟩

/-- C2: in short mode, on at least 20 complete sessions where the latest
close is below ma5, below the latest open, more than 5% above ma20, and
below the previous close on volume above volMA5, the result's score is
exactly 5 and its reason tags are the four rule tags in rule order. -/
theorem scorer_short_all_rules_score_five (t : String) (rows : List Row)
    (curr prev : CRow) (rest : List CRow)
    (hrev : (dropna rows).reverse = curr :: prev :: rest)
    (hlen : 20 ≤ (dropna rows).length)
    (h1 : curr.close < lastMean 5 ((dropna rows).map CRow.close))
    (h2 : curr.close < curr.open_)
    (hma20 : lastMean 20 ((dropna rows).map CRow.close) ≠ 0)
    (h3 : 5 / 100 <
      (curr.close - lastMean 20 ((dropna rows).map CRow.close)) /
        lastMean 20 ((dropna rows).map CRow.close))
    (h4 : curr.close < prev.close)
    (h5 : lastMean 5 ((dropna rows).map CRow.volume) < curr.volume) :
    analyze_stock t .short (.frame rows) =
      some ⟨t, curr.close, prev.close, 5,
        ["破5MA", "收黑K", "高乖離", "量增跌"], curr.volume⟩ := by
  rw [analyze_stock_frame_eq t .short rows curr prev rest hrev hlen]
  simp only [scoreRules, npGT, if_neg hma20]
  simp [addRule, h1, h2, h3, h4, h5]

/-- Witness for C2 at a concrete 20-session series firing all four
rules. -/
theorem scorer_short_all_rules_score_five_witness :
    analyze_stock "T" .short (.frame rowsAllRules) =
      some ⟨"T", 100, 200, 5, ["破5MA", "收黑K", "高乖離", "量增跌"], 1000⟩ :=
  scorer_short_all_rules_score_five "T" rowsAllRules (mkBar 150 100 1000)
    (mkBar 200 200 100) restAllRules rfl (by decide)
    (by norm_num [rowsAllRules, mkRow, mkBar, CRow.toRow, dropna, Row.completed,
      lastMean, List.filterMap_cons, List.reverse_cons, List.sum_cons])
    (by norm_num [mkBar])
    (by norm_num [rowsAllRules, mkRow, mkBar, CRow.toRow, dropna, Row.completed,
      lastMean, List.filterMap_cons, List.reverse_cons, List.sum_cons])
    (by norm_num [rowsAllRules, mkRow, mkBar, CRow.toRow, dropna, Row.completed,
      lastMean, List.filterMap_cons, List.reverse_cons, List.sum_cons])
    (by norm_num [mkBar])
    (by norm_num [rowsAllRules, mkRow, mkBar, CRow.toRow, dropna, Row.completed,
      lastMean, List.filterMap_cons, List.reverse_cons, List.sum_cons])

/-- C3 counterexample: a 20-session series whose ma20 is exactly 0 on
which `analyze_stock` still returns a result (the bearish-close rule
fires), refuting the claimed division-by-zero guard. -/
theorem scorer_ma20_zero_counterexample :
    lastMean 20 ((dropna rowsZeroMa20).map CRow.close) = 0 ∧
      20 ≤ (dropna rowsZeroMa20).length ∧
      analyze_stock "X" .short (.frame rowsZeroMa20) = some resZeroMa20 := by
  refine ⟨?_, by decide, ?_⟩
  · norm_num [rowsZeroMa20, mkRow, mkBar, CRow.toRow, dropna, Row.completed,
      lastMean, List.filterMap_cons, List.reverse_cons, List.sum_cons]
  · norm_num [analyze_stock, rowsZeroMa20, mkRow, mkBar, CRow.toRow, dropna,
      Row.completed, lastMean, scoreRules, addRule, npGT, resZeroMa20,
      List.filterMap_cons, List.reverse_cons, List.headI, List.sum_cons]

/-- C3 amended: with ma20 exactly 0 the scorer does not skip the
instrument; evaluation continues under IEEE division semantics, and (short
mode) a result is still produced whenever another rule fires, e.g. a
bearish close. -/
theorem scorer_ma20_zero_no_guard (t : String) (rows : List Row)
    (curr prev : CRow) (rest : List CRow)
    (hrev : (dropna rows).reverse = curr :: prev :: rest)
    (hlen : 20 ≤ (dropna rows).length)
    (hma20 : lastMean 20 ((dropna rows).map CRow.close) = 0)
    (h2 : curr.close < curr.open_) :
    (analyze_stock t .short (.frame rows)).isSome = true := by
  rw [analyze_stock_frame_eq t .short rows curr prev rest hrev hlen]
  have hpos : 0 < (scoreRules .short curr prev
      (lastMean 5 ((dropna rows).map CRow.close))
      (lastMean 20 ((dropna rows).map CRow.close))
      (lastMean 5 ((dropna rows).map CRow.volume))).1 := by
    simp only [scoreRules]
    refine lt_of_lt_of_le
      (addRule_fst_pos _ 1 "收黑K" (decide_eq_true h2) one_pos)
      (le_trans (addRule_fst_mono _ _ _ _) (addRule_fst_mono _ _ _ _))
  rw [if_pos hpos]
  rfl

/-- Witness for the amended C3 at the all-zero-close series. -/
theorem scorer_ma20_zero_no_guard_witness :
    (analyze_stock "X" .short (.frame rowsZeroMa20)).isSome = true :=
  scorer_ma20_zero_no_guard "X" rowsZeroMa20 (mkBar 1 0 1) (mkBar 1 0 1)
    restZeroMa20 rfl (by decide)
    (by norm_num [rowsZeroMa20, mkRow, mkBar, CRow.toRow, dropna, Row.completed,
      lastMean, List.filterMap_cons, List.reverse_cons, List.sum_cons])
    (by norm_num [mkBar])

/-- `tieRevKernel` satisfies numpy's argsort contract. -/
theorem tieRevKernel_asc : AscSortKernel tieRevKernel := by
  intro l
  constructor
  · exact (List.reverse_perm _).trans (List.perm_insertionSort scoreGE l)
  · exact List.pairwise_reverse.mpr
      ((List.sorted_insertionSort scoreGE l).imp fun h => h)

/-- A stable insertion sort also satisfies numpy's argsort contract. -/
theorem insertionSortKernel_asc : AscSortKernel (List.insertionSort scoreLE) :=
  fun l => ⟨List.perm_insertionSort scoreLE l, List.sorted_insertionSort scoreLE l⟩

/-- C4 counterexample: numpy's contract for the default quicksort argsort
admits a tie-reversing kernel, under which two equal-score candidates
discovered in the order `resTieA`, `resTieB` are ranked with the later
one first — so the source's ranking does not guarantee stability. -/
theorem ranking_tie_order_counterexample :
    AscSortKernel tieRevKernel ∧
      resTieA.score = resTieB.score ∧ resTieA ≠ resTieB ∧
      sort_values_desc tieRevKernel [resTieA, resTieB] = [resTieB, resTieA] := by
  refine ⟨tieRevKernel_asc, rfl, ?_, rfl⟩
  intro h
  exact absurd (congrArg Result.ticker h) (by decide)

/-- C4 amended: for every argsort kernel meeting numpy's contract, the
ranked output is a permutation of the candidates sorted by score
descending; the relative order of equal scores is not guaranteed, since
the source requests the default (unstable) quicksort kind. -/
theorem ranking_desc_sorted_perm (kernel : List Result → List Result)
    (hk : AscSortKernel kernel) (l : List Result) :
    (sort_values_desc kernel l).Perm l ∧
      List.Sorted (fun a b : Result => b.score ≤ a.score)
        (sort_values_desc kernel l) := by
  obtain ⟨hperm, hsort⟩ := hk l.reverse
  constructor
  · exact (List.reverse_perm _).trans (hperm.trans (List.reverse_perm l))
  · exact List.pairwise_reverse.mpr (hsort.imp fun h => h)

/-- Witness for the amended C4 with a concrete admissible kernel. -/
theorem ranking_desc_sorted_perm_witness :
    (sort_values_desc (List.insertionSort scoreLE)
        [resTieA, resTieB, resLow]).Perm [resTieA, resTieB, resLow] ∧
      List.Sorted (fun a b : Result => b.score ≤ a.score)
        (sort_values_desc (List.insertionSort scoreLE)
          [resTieA, resTieB, resLow]) :=
  ranking_desc_sorted_perm (List.insertionSort scoreLE) insertionSortKernel_asc
    [resTieA, resTieB, resLow]

/-- C5 counterexample: a liquid instrument whose latest close equals the
price threshold 20 is rejected by the pre-filter in both modes, refuting
the claim that equality with the threshold passes. -/
theorem prefilter_price_threshold_counterexample :
    ((dropna rowsAtPriceCut).reverse.headI).close = 20 ∧
      VOL_THRESHOLD ≤ ((dropna rowsAtPriceCut).reverse.headI).volume ∧
      prefilter .long (.frame rowsAtPriceCut) = false ∧
      prefilter .short (.frame rowsAtPriceCut) = false := by
  refine ⟨rfl, ?_, ?_, ?_⟩
  · norm_num [rowsAtPriceCut, mkRow, mkBar, CRow.toRow, dropna, Row.completed,
      VOL_THRESHOLD, List.filterMap_cons, List.reverse_cons, List.headI]
  · norm_num [prefilter, rowsAtPriceCut, mkRow, mkBar, CRow.toRow, dropna,
      Row.completed, VOL_THRESHOLD,
      List.filterMap_cons, List.reverse_cons, List.headI]
  · norm_num [prefilter, rowsAtPriceCut, mkRow, mkBar, CRow.toRow, dropna,
      Row.completed, VOL_THRESHOLD,
      List.filterMap_cons, List.reverse_cons, List.headI]

/-- C5 amended: given the volume threshold is met, the previous close is
not 0 (otherwise the percent-change division raises and the ticker is
skipped), and no short-mode limit-up exclusion applies, the pre-filter
accepts exactly when the most recent close is strictly greater than 20;
a close equal to the threshold is rejected. -/
theorem prefilter_price_strict_gt (mode : Mode) (rows : List Row)
    (curr prev : CRow) (rest : List CRow)
    (hrev : (dropna rows).reverse = curr :: prev :: rest)
    (hvol : VOL_THRESHOLD ≤ curr.volume)
    (hprev : prev.close ≠ 0)
    (hlim : mode = Mode.short →
      ¬ 98 / 1000 ≤ (curr.close - prev.close) / prev.close) :
    (prefilter mode (.frame rows) = true ↔ 20 < curr.close) := by
  have hlen2 : ¬ (dropna rows).length < 2 := by
    have h := congrArg List.length hrev
    simp only [List.length_reverse, List.length_cons] at h
    omega
  simp only [prefilter, hrev, List.headI, List.tail_cons, if_neg hlen2,
    if_neg hprev]
  constructor
  · intro h
    by_contra hc
    rw [if_neg fun hand => hc hand.2] at h
    exact Bool.false_ne_true h
  · intro h
    rw [if_pos ⟨hvol, h⟩]
    cases mode with
    | short => rw [if_neg (by simp [hlim rfl])]
    | long => rw [if_neg (by simp)]

/-- Witness for the amended C5 just above the threshold. -/
theorem prefilter_price_strict_gt_witness :
    prefilter Mode.long (.frame rowsAbovePriceCut) = true ↔
      20 < (mkBar 21 21 3000000).close :=
  prefilter_price_strict_gt Mode.long rowsAbovePriceCut (mkBar 21 21 3000000)
    (mkBar 21 21 5000000) [] rfl (by norm_num [VOL_THRESHOLD, mkBar])
    (by norm_num [mkBar]) (fun h => nomatch h)

/-- C6: an instrument with day-over-day change at least 0.098 (volume and
price checks passing) is excluded by the short-mode pre-filter but not by
the long-mode pre-filter. -/
theorem prefilter_limit_up_short_only (rows : List Row)
    (curr prev : CRow) (rest : List CRow)
    (hrev : (dropna rows).reverse = curr :: prev :: rest)
    (hvol : VOL_THRESHOLD ≤ curr.volume) (hprice : 20 < curr.close)
    (hprev : 0 < prev.close)
    (hchg : 98 / 1000 ≤ (curr.close - prev.close) / prev.close) :
    prefilter .short (.frame rows) = false ∧
      prefilter .long (.frame rows) = true := by
  have hlen2 : ¬ (dropna rows).length < 2 := by
    have h := congrArg List.length hrev
    simp only [List.length_reverse, List.length_cons] at h
    omega
  have hprev0 : ¬ prev.close = 0 := ne_of_gt hprev
  constructor
  · simp only [prefilter, hrev, List.headI, List.tail_cons, if_neg hlen2,
      if_neg hprev0]
    rw [if_pos ⟨hvol, hprice⟩, if_pos ⟨trivial, decide_eq_true hchg⟩]
  · simp only [prefilter, hrev, List.headI, List.tail_cons, if_neg hlen2,
      if_neg hprev0]
    rw [if_pos ⟨hvol, hprice⟩, if_neg (by simp)]

/-- Witness for C6 at a 10% day-over-day gain. -/
theorem prefilter_limit_up_short_only_witness :
    prefilter Mode.short (.frame rowsLimitUp) = false ∧
      prefilter Mode.long (.frame rowsLimitUp) = true :=
  prefilter_limit_up_short_only rowsLimitUp (mkBar 110 110 3000000)
    (mkBar 100 100 100) [] rfl (by norm_num [VOL_THRESHOLD, mkBar])
    (by norm_num [mkBar]) (by norm_num [mkBar]) (by norm_num [mkBar])

/-- C7: every composite score either scorer produces is a natural number
at most 5. -/
theorem scorer_score_le_five :
    (∀ (t : String) (mode : Mode) (df : DFrame) (r : Result),
        analyze_stock t mode df = some r → r.score ≤ 5) ∧
      ∀ (t : String) (df : List CRow) (r : SResult),
        analyze_short_opportunity t df = some r → r.Score ≤ 5 := by
  constructor
  · intro t mode df r h
    cases df with
    | malformed => exact absurd h (by simp [analyze_stock])
    | frame rows =>
      simp only [analyze_stock] at h
      split at h
      · exact absurd h (by simp)
      · split at h
        · have hr := Option.some.inj h
          subst hr
          exact scoreRules_fst_le_five _ _ _ _ _ _
        · exact absurd h (by simp)
  · intro t df r h
    simp only [analyze_short_opportunity] at h
    split at h
    · exact absurd h (by simp)
    · have hr := Option.some.inj h
      subst hr
      dsimp only
      split_ifs <;> simp

/-- Witness for C7 at concrete inputs of both scorers. -/
theorem scorer_score_le_five_witness :
    resZeroMa20.score ≤ 5 ∧ (⟨"A", 100, 0, 0, 100⟩ : SResult).Score ≤ 5 :=
  ⟨scorer_score_le_five.1 "X" .short (.frame rowsZeroMa20) resZeroMa20
    (by norm_num [analyze_stock, rowsZeroMa20, mkRow, mkBar, CRow.toRow, dropna,
      Row.completed, lastMean, scoreRules, addRule, npGT, resZeroMa20,
      List.filterMap_cons, List.reverse_cons, List.headI, List.sum_cons]),
  scorer_score_le_five.2 "A" barsFlat ⟨"A", 100, 0, 0, 100⟩
    (by norm_num [analyze_short_opportunity, barsFlat, mkBar, lastMean, npGT,
      List.reverse_cons, List.headI, List.sum_cons])⟩

/-- C8: a failing instrument never aborts the batch: a malformed frame is
mapped to no result by the scorer and to rejection by the pre-filter, and
an instrument on which the scorer returns no result (resp. the pre-filter
rejects) changes nothing for the other instruments of either stage. -/
theorem batch_failure_isolated :
    (∀ (t : String) (mode : Mode),
        analyze_stock t mode .malformed = none ∧
          prefilter mode .malformed = false) ∧
      (∀ (mode : Mode) (minScore : ℕ) (xs ys : List (String × DFrame))
          (t : String) (inp : DFrame), analyze_stock t mode inp = none →
          scanStage2 mode minScore (xs ++ (t, inp) :: ys) =
            scanStage2 mode minScore (xs ++ ys)) ∧
      ∀ (mode : Mode) (xs ys : List (String × DFrame)) (t : String)
          (inp : DFrame), prefilter mode inp = false →
          qualifiedTickers mode (xs ++ (t, inp) :: ys) =
            qualifiedTickers mode (xs ++ ys) := by
  refine ⟨fun t mode => ⟨rfl, rfl⟩, ?_, ?_⟩
  · intro mode s xs ys t inp h
    simp only [scanStage2, List.filterMap_append, List.filterMap_cons, h]
  · intro mode xs ys t inp h
    simp only [qualifiedTickers, List.filter_append, List.filter_cons, h,
      List.map_append]
    simp

/-- Witness for C8: a malformed instrument in the middle of a batch. -/
theorem batch_failure_isolated_witness :
    analyze_stock "B" Mode.short .malformed = none ∧
      scanStage2 Mode.short 1 ([] ++ ("B", DFrame.malformed) :: []) =
        scanStage2 Mode.short 1 ([] ++ []) :=
  ⟨rfl, batch_failure_isolated.2.1 Mode.short 1 [] [] "B" .malformed rfl⟩

/-- C9: the scorer's inclusion floor is any positive score: with at least
20 complete sessions and no rule firing, `analyze_stock` returns no
result, and every result it does return has positive score. -/
theorem scorer_zero_score_not_surfaced :
    (∀ (t : String) (mode : Mode) (rows : List Row) (curr prev : CRow)
        (rest : List CRow), (dropna rows).reverse = curr :: prev :: rest →
        20 ≤ (dropna rows).length →
        (scoreRules mode curr prev
          (lastMean 5 ((dropna rows).map CRow.close))
          (lastMean 20 ((dropna rows).map CRow.close))
          (lastMean 5 ((dropna rows).map CRow.volume))).1 = 0 →
        analyze_stock t mode (.frame rows) = none) ∧
      ∀ (t : String) (mode : Mode) (df : DFrame) (r : Result),
        analyze_stock t mode df = some r → 0 < r.score := by
  constructor
  · intro t mode rows curr prev rest hrev hlen hscore
    rw [analyze_stock_frame_eq t mode rows curr prev rest hrev hlen]
    simp [hscore]
  · intro t mode df r h
    cases df with
    | malformed => exact absurd h (by simp [analyze_stock])
    | frame rows =>
      simp only [analyze_stock] at h
      split at h
      · exact absurd h (by simp)
      · split at h
        · rename_i hpos
          have hr := Option.some.inj h
          subst hr
          simpa using hpos
        · exact absurd h (by simp)

/-- Witness for C9 at 20 identical flat sessions. -/
theorem scorer_zero_score_not_surfaced_witness :
    analyze_stock "Z" Mode.short (.frame rowsFlat) = none :=
  scorer_zero_score_not_surfaced.1 "Z" Mode.short rowsFlat
    (mkBar 100 100 100) (mkBar 100 100 100)
    (List.replicate 18 (mkBar 100 100 100)) rfl (by decide)
    (by norm_num [rowsFlat, mkRow, mkBar, CRow.toRow, dropna, Row.completed,
      lastMean, scoreRules, addRule, npGT,
      List.filterMap_cons, List.reverse_cons, List.sum_cons])

/-- C10: rows with any missing value are dropped before the length check
and the indicators: incomplete rows never influence the scorer's output,
and at least 20 raw rows with fewer than 20 complete rows still yield no
result. -/
theorem dropna_before_length_check :
    (∀ (t : String) (mode : Mode) (rows : List Row),
        analyze_stock t mode (.frame rows) =
          analyze_stock t mode (.frame (rows.filter fun r => r.completed.isSome))) ∧
      ∀ (t : String) (mode : Mode) (rows : List Row),
        20 ≤ rows.length → (dropna rows).length < 20 →
        analyze_stock t mode (.frame rows) = none := by
  constructor
  · intro t mode rows
    simp only [analyze_stock, dropna_filter_completed]
  · intro t mode rows _ h
    simp [analyze_stock, h]

/-- Witness for C10: 20 raw rows of which one has a missing close. -/
theorem dropna_before_length_check_witness :
    rowsOneNaN.length = 20 ∧ (dropna rowsOneNaN).length = 19 ∧
      analyze_stock "W" Mode.short (.frame rowsOneNaN) = none :=
  ⟨by decide, by decide,
    dropna_before_length_check.2 "W" Mode.short rowsOneNaN (by decide) (by decide)⟩

end Shortsell
